import Mathlib

/-!
Verification of `src/scripts/setupStorage.ts`, a storage-provisioning
script: it lists buckets, creates the configured bucket if absent,
enables row-level security, creates four access policies, uploads the
image files of a local directory, and writes a URL-helper source file.

The script is embedded shallowly: every remote call and filesystem call
is an `Event`, the outcomes of the calls are an `Env`, and `run`
computes the trace of events together with the process exit code,
following the control flow of the TypeScript source (a single `try`
block whose `catch` logs and exits with code 1).
-/

namespace SetupStorage

/-- The constant `BUCKET_NAME` of the script. -/
def BUCKET_NAME : String := "disc-product-images"

/-- ASCII lower-casing of one character, as JavaScript's `toLowerCase`
acts on the characters this script deals with. -/
def lowerChar (c : Char) : Char :=
  if 65 ≤ c.toNat ∧ c.toNat ≤ 90 then Char.ofNat (c.toNat + 32) else c

/-- `String.prototype.toLowerCase` over the characters of the string. -/
def lowerStr (s : String) : String := String.mk (s.data.map lowerChar)

/-- `String.prototype.endsWith`. -/
def endsWithStr (s suffix : String) : Bool := suffix.data.isSuffixOf s.data

/-- Substring occurrence over character lists. -/
def includesList (pat : List Char) : List Char → Bool
  | [] => pat.isEmpty
  | c :: cs => pat.isPrefixOf (c :: cs) || includesList pat cs

/-- `String.prototype.substring(n)` (drop the first `n` characters). -/
def dropStr (n : Nat) (s : String) : String := String.mk (s.data.drop n)

/-- Last index of a character in a list of characters, if present. -/
def lastIdxOf (c : Char) : List Char → Option Nat
  | [] => none
  | x :: xs =>
    match lastIdxOf c xs with
    | some i => some (i + 1)
    | none => if x = c then some 0 else none

/-- Node's `path.extname` on a plain file name (no directory separators):
the suffix from the last dot, except that a name with no dot, a name
whose only dot is its first character, and the name `..` give `""`. -/
def extname (f : String) : String :=
  if f = ".." then ""
  else
    match lastIdxOf '.' f.data with
    | none => ""
    | some 0 => ""
    | some i => String.mk (f.data.drop i)

/-- The test `file.match(/\.(jpg|jpeg|png|gif)$/i)` of the script:
the name ends, case-insensitively, in one of the four image suffixes. -/
def isImageFile (f : String) : Bool :=
  let l := lowerStr f
  endsWithStr l ".jpg" || endsWithStr l ".jpeg" ||
    endsWithStr l ".png" || endsWithStr l ".gif"

/-- JavaScript's `String.prototype.includes`. -/
def includesStr (s pat : String) : Bool := includesList pat.data s.data

/-- `policy.name.toLowerCase().replace(/ /g, "_")` of the script. -/
def policyKey (s : String) : String :=
  String.mk ((s.data.map lowerChar).map (fun c => if c = ' ' then '_' else c))

/-- The `policies` array of the script: four (display name, SQL
definition) pairs, the SQL interpolating `BUCKET_NAME`. -/
def policies : List (String × String) :=
  [ ("Allow public uploads",
     "\n          CREATE POLICY \"allow_public_uploads\"\n          ON storage.objects FOR INSERT\n          WITH CHECK (bucket_id = \x27" ++ BUCKET_NAME ++ "\x27 AND auth.role() = \x27anon\x27)\n        "),
    ("Allow public reads",
     "\n          CREATE POLICY \"allow_public_reads\"\n          ON storage.objects FOR SELECT\n          USING (bucket_id = \x27" ++ BUCKET_NAME ++ "\x27)\n        "),
    ("Allow public updates",
     "\n          CREATE POLICY \"allow_public_updates\"\n          ON storage.objects FOR UPDATE\n          USING (bucket_id = \x27" ++ BUCKET_NAME ++ "\x27)\n          WITH CHECK (bucket_id = \x27" ++ BUCKET_NAME ++ "\x27)\n        "),
    ("Allow public deletes",
     "\n          CREATE POLICY \"allow_public_deletes\"\n          ON storage.objects FOR DELETE\n          USING (bucket_id = \x27" ++ BUCKET_NAME ++ "\x27)\n        ") ]

/-- The fixed part of the generated helper before the bucket name. -/
def helperPre : String :=
  "\nimport \x7b supabase \x7d from \x27../config/supabaseClient\x27;\n\nexport const getPublicImageUrl = (imageName: string): string => \x7b\n  const \x7b data \x7d = supabase.storage\n    .from(\""

/-- The fixed part of the generated helper after the bucket name. -/
def helperPost : String :=
  "\")\n    .getPublicUrl(`product-images/$\x7bimageName\x7d`);\n  return data.publicUrl;\n\x7d;"

/-- The `helperCode` template literal of the script, as a function of
the interpolated bucket name. -/
def helperCode (bucket : String) : String := helperPre ++ bucket ++ helperPost

/-- Outcome of a remote procedure call: either a thrown exception
carrying a message, or a returned result object whose `error` field may
or may not be set. -/
inductive RpcOutcome where
  | thrown (msg : String)
  | returned (err : Option String)
deriving DecidableEq, Repr

/-- One observable action of the script: a remote call, a filesystem
call, or a console diagnostic. -/
inductive Event where
  | listBuckets
  | createBucket (name : String) (isPublic : Bool) (sizeLimit : Nat)
  | enableRls (tbl schema : String)
  | createPolicy (bucket policyName definition : String)
  | logPolicyExists (name : String)
  | logPolicyError (name : String)
  | readImagesDir
  | readFile (name : String)
  | upload (bucket path : String) (content : List Nat) (contentType : String) (upsert : Bool)
  | logUploadError (name : String)
  | logUploadOk (name : String)
  | mkdirUtils
  | writeFileUtils (fname content : String)
  | logSetupFailed
deriving DecidableEq, Repr

/-- The environment the script runs against: the outcome of each remote
call and each filesystem call it may make. Per-file outcomes are keyed
by file name (the script always joins them to the same fixed
directories). -/
structure Env where
  listBucketsResult : Except String (List String)
  createBucketError : Option String
  enableRlsOutcome : RpcOutcome
  createPolicyOutcome : String → RpcOutcome
  readdirResult : Except String (List String)
  readFileResult : String → Except String (List Nat)
  uploadError : String → Option String
  utilsDirExists : Bool

/-- The bucket-creation step: skipped when the listed bucket names
contain `BUCKET_NAME`; otherwise one create call with `public: true`
and `fileSizeLimit: 1024 * 1024 * 2`, whose error aborts the run. -/
def createEvents (env : Env) (buckets : List String) : List Event × Bool :=
  if buckets.any (fun bucket => bucket == BUCKET_NAME) then ([], true)
  else
    match env.createBucketError with
    | some _ => ([Event.createBucket BUCKET_NAME true (1024 * 1024 * 2)], false)
    | none => ([Event.createBucket BUCKET_NAME true (1024 * 1024 * 2)], true)

/-- One iteration of the policy loop: the create-policy RPC, then the
inner `catch` that tolerates thrown errors whose message includes
"already exists" and logs every other thrown error. A returned result
object is never inspected. -/
def policyEvents (env : Env) (p : String × String) : List Event :=
  Event.createPolicy BUCKET_NAME (policyKey p.1) p.2 ::
    match env.createPolicyOutcome (policyKey p.1) with
    | RpcOutcome.thrown msg =>
        if includesStr msg "already exists" then [Event.logPolicyExists p.1]
        else [Event.logPolicyError p.1]
    | RpcOutcome.returned _ => []

/-- The whole policy loop over the four fixed policies. -/
def processPolicies (env : Env) : List Event :=
  policies.flatMap (policyEvents env)

/-- The upload loop: non-image names are skipped; for an image name the
file is read (a read failure is an uncaught exception, aborting the
run), uploaded under `product-images/` with content type from the
extension and `upsert: true`, and a returned upload error is only
logged. -/
def processFiles (env : Env) : List String → List Event × Bool
  | [] => ([], true)
  | f :: fs =>
    if isImageFile f then
      match env.readFileResult f with
      | Except.error _ => ([Event.readFile f], false)
      | Except.ok c =>
        let up := Event.upload BUCKET_NAME ("product-images/" ++ f) c
          ("image/" ++ dropStr 1 (extname f)) true
        let tail := processFiles env fs
        match env.uploadError f with
        | some _ => (Event.readFile f :: up :: Event.logUploadError f :: tail.1, tail.2)
        | none => (Event.readFile f :: up :: Event.logUploadOk f :: tail.1, tail.2)
    else processFiles env fs

/-- The helper-generation step: create the utils directory when it does
not exist, then unconditionally write `storageHelper.ts`. -/
def helperEvs (env : Env) : List Event :=
  (if env.utilsDirExists then [] else [Event.mkdirUtils]) ++
    [Event.writeFileUtils "storageHelper.ts" (helperCode BUCKET_NAME)]

/-- The body of the script's `try` block: the event trace and whether it
ran to completion (`false` means an exception reached the outer
`catch`). -/
def tryBody (env : Env) : List Event × Bool :=
  match env.listBucketsResult with
  | Except.error _ => ([Event.listBuckets], false)
  | Except.ok buckets =>
    match createEvents env buckets with
    | (evs, false) => (Event.listBuckets :: evs, false)
    | (evs, true) =>
      match env.enableRlsOutcome with
      | RpcOutcome.thrown _ =>
          (Event.listBuckets :: (evs ++ [Event.enableRls "objects" "storage"]), false)
      | RpcOutcome.returned _ =>
        match env.readdirResult with
        | Except.error _ =>
            (Event.listBuckets :: (evs ++ (Event.enableRls "objects" "storage" ::
              (processPolicies env ++ [Event.readImagesDir]))), false)
        | Except.ok files =>
          match processFiles env files with
          | (fevs, false) =>
              (Event.listBuckets :: (evs ++ (Event.enableRls "objects" "storage" ::
                (processPolicies env ++ (Event.readImagesDir :: fevs)))), false)
          | (fevs, true) =>
              (Event.listBuckets :: (evs ++ (Event.enableRls "objects" "storage" ::
                (processPolicies env ++ (Event.readImagesDir ::
                  (fevs ++ helperEvs env))))), true)

/-- Final result of one process run: the event trace and the exit code. -/
structure RunResult where
  events : List Event
  exitCode : Nat
deriving DecidableEq, Repr

/-- The whole script: the `try` body, with the `catch` handler logging
the failure and calling `process.exit(1)`; normal completion exits 0. -/
def run (env : Env) : RunResult :=
  match tryBody env with
  | (evs, true) => ⟨evs, 0⟩
  | (evs, false) => ⟨evs ++ [Event.logSetupFailed], 1⟩

/-- Recognizer for bucket-creation events. -/
def isCreateBucketEv : Event → Bool
  | Event.createBucket _ _ _ => true
  | _ => false

/-- Recognizer for policy-creation events. -/
def isCreatePolicyEv : Event → Bool
  | Event.createPolicy _ _ _ => true
  | _ => false

/-- Recognizer for file-read events. -/
def isReadFileEv : Event → Bool
  | Event.readFile _ => true
  | _ => false

/-- Recognizer for upload events. -/
def isUploadEv : Event → Bool
  | Event.upload _ _ _ _ _ => true
  | _ => false

/-- Recognizer for the events the upload loop can emit. -/
def isFileStageEv : Event → Bool
  | Event.readFile _ => true
  | Event.upload _ _ _ _ _ => true
  | Event.logUploadError _ => true
  | Event.logUploadOk _ => true
  | _ => false

/-- Recognizer for the events the policy loop can emit. -/
def isPolicyStageEv : Event → Bool
  | Event.createPolicy _ _ _ => true
  | Event.logPolicyExists _ => true
  | Event.logPolicyError _ => true
  | _ => false

lemma createEvents_mem (env : Env) (buckets : List String) :
    ∀ e ∈ (createEvents env buckets).1,
      e = Event.createBucket BUCKET_NAME true (1024 * 1024 * 2) ∧
      buckets.any (fun bucket => bucket == BUCKET_NAME) = false := by
  intro e he
  unfold createEvents at he
  cases hb : buckets.any (fun bucket => bucket == BUCKET_NAME) with
  | true => rw [if_pos hb] at he; simp at he
  | false =>
    rw [if_neg (by simp [hb])] at he
    rcases hc : env.createBucketError with _ | c <;> rw [hc] at he <;>
      simp at he <;> exact ⟨he, rfl⟩

lemma policyEvents_kinds (env : Env) (p : String × String) :
    ∀ e ∈ policyEvents env p, isPolicyStageEv e = true := by
  intro e he
  unfold policyEvents at he
  rcases ho : env.createPolicyOutcome (policyKey p.1) with msg | er <;> rw [ho] at he
  · by_cases hi : includesStr msg "already exists" <;>
      simp [hi] at he <;> rcases he with h | h <;> subst h <;> rfl
  · simp at he; subst he; rfl

lemma processPolicies_kinds (env : Env) :
    ∀ e ∈ processPolicies env, isPolicyStageEv e = true := by
  intro e he
  rw [processPolicies, List.mem_flatMap] at he
  obtain ⟨p, hp, hmem⟩ := he
  exact policyEvents_kinds env p e hmem

lemma processFiles_kinds (env : Env) :
    ∀ fs, ∀ e ∈ (processFiles env fs).1, isFileStageEv e = true := by
  intro fs
  induction fs with
  | nil => simp [processFiles]
  | cons f fs ih =>
    intro e he
    rw [processFiles] at he
    cases hf : isImageFile f with
    | false => rw [if_neg (by simp [hf])] at he; exact ih e he
    | true =>
      rw [if_pos hf] at he
      rcases hr : env.readFileResult f with m | c <;> rw [hr] at he
      · simp at he; subst he; rfl
      · rcases hu : env.uploadError f with _ | u <;> rw [hu] at he <;>
          simp only [List.mem_cons] at he <;>
          rcases he with h | h | h | h <;>
          first
          | (subst h; rfl)
          | exact ih e h

lemma helperEvs_mem (env : Env) :
    ∀ e ∈ helperEvs env,
      e = Event.mkdirUtils ∨
      e = Event.writeFileUtils "storageHelper.ts" (helperCode BUCKET_NAME) := by
  intro e he
  unfold helperEvs at he
  by_cases hu : env.utilsDirExists <;> simp [hu] at he <;> tauto

lemma createEvents_ok (env : Env) (buckets : List String)
    (h : buckets.any (fun bucket => bucket == BUCKET_NAME) = true ∨
      env.createBucketError = none) :
    (createEvents env buckets).2 = true := by
  unfold createEvents
  rcases h with h | h
  · rw [if_pos h]
  · cases hb : buckets.any (fun bucket => bucket == BUCKET_NAME)
    · rw [if_neg (by simp), h]
    · rfl

lemma tryBody_events_cases (env : Env) :
    ∀ e ∈ (tryBody env).1,
      e = Event.listBuckets ∨
      e = Event.enableRls "objects" "storage" ∨
      e = Event.readImagesDir ∨
      (∃ buckets, env.listBucketsResult = Except.ok buckets ∧
        e ∈ (createEvents env buckets).1) ∨
      e ∈ processPolicies env ∨
      (∃ fs, env.readdirResult = Except.ok fs ∧ e ∈ (processFiles env fs).1) ∨
      (∃ fs, env.readdirResult = Except.ok fs ∧ (processFiles env fs).2 = true ∧
        e ∈ helperEvs env) := by
  intro e he
  unfold tryBody at he
  split at he
  · simp at he; exact Or.inl he
  · rename_i buckets hl
    split at he
    · rename_i cevs hce
      have hcmem : ∀ x ∈ cevs, x ∈ (createEvents env buckets).1 := by
        intro x hx; rw [hce]; exact hx
      rcases List.mem_cons.mp he with h | h
      · exact Or.inl h
      · exact Or.inr (Or.inr (Or.inr (Or.inl ⟨buckets, hl, hcmem e h⟩)))
    · rename_i cevs hce
      have hcmem : ∀ x ∈ cevs, x ∈ (createEvents env buckets).1 := by
        intro x hx; rw [hce]; exact hx
      split at he
      · rcases List.mem_cons.mp he with h | h
        · exact Or.inl h
        · rcases List.mem_append.mp h with h | h
          · exact Or.inr (Or.inr (Or.inr (Or.inl ⟨buckets, hl, hcmem e h⟩)))
          · exact Or.inr (Or.inl (by simpa using h))
      · split at he
        · rename_i m hrd
          rcases List.mem_cons.mp he with h | h
          · exact Or.inl h
          · rcases List.mem_append.mp h with h | h
            · exact Or.inr (Or.inr (Or.inr (Or.inl ⟨buckets, hl, hcmem e h⟩)))
            · rcases List.mem_cons.mp h with h | h
              · exact Or.inr (Or.inl h)
              · rcases List.mem_append.mp h with h | h
                · exact Or.inr (Or.inr (Or.inr (Or.inr (Or.inl h))))
                · exact Or.inr (Or.inr (Or.inl (by simpa using h)))
        · rename_i fs hrd
          split at he
          · rename_i fevs hpf
            have hfmem : ∀ x ∈ fevs, x ∈ (processFiles env fs).1 := by
              intro x hx; rw [hpf]; exact hx
            rcases List.mem_cons.mp he with h | h
            · exact Or.inl h
            · rcases List.mem_append.mp h with h | h
              · exact Or.inr (Or.inr (Or.inr (Or.inl ⟨buckets, hl, hcmem e h⟩)))
              · rcases List.mem_cons.mp h with h | h
                · exact Or.inr (Or.inl h)
                · rcases List.mem_append.mp h with h | h
                  · exact Or.inr (Or.inr (Or.inr (Or.inr (Or.inl h))))
                  · rcases List.mem_cons.mp h with h | h
                    · exact Or.inr (Or.inr (Or.inl h))
                    · exact Or.inr (Or.inr (Or.inr (Or.inr (Or.inr
                        (Or.inl ⟨fs, hrd, hfmem e h⟩)))))
          · rename_i fevs hpf
            have hfmem : ∀ x ∈ fevs, x ∈ (processFiles env fs).1 := by
              intro x hx; rw [hpf]; exact hx
            rcases List.mem_cons.mp he with h | h
            · exact Or.inl h
            · rcases List.mem_append.mp h with h | h
              · exact Or.inr (Or.inr (Or.inr (Or.inl ⟨buckets, hl, hcmem e h⟩)))
              · rcases List.mem_cons.mp h with h | h
                · exact Or.inr (Or.inl h)
                · rcases List.mem_append.mp h with h | h
                  · exact Or.inr (Or.inr (Or.inr (Or.inr (Or.inl h))))
                  · rcases List.mem_cons.mp h with h | h
                    · exact Or.inr (Or.inr (Or.inl h))
                    · rcases List.mem_append.mp h with h | h
                      · exact Or.inr (Or.inr (Or.inr (Or.inr (Or.inr
                          (Or.inl ⟨fs, hrd, hfmem e h⟩)))))
                      · exact Or.inr (Or.inr (Or.inr (Or.inr (Or.inr
                          (Or.inr ⟨fs, hrd, by rw [hpf], h⟩)))))

lemma run_events_cases (env : Env) :
    ∀ e ∈ (run env).events,
      e = Event.listBuckets ∨
      e = Event.logSetupFailed ∨
      e = Event.enableRls "objects" "storage" ∨
      e = Event.readImagesDir ∨
      (∃ buckets, env.listBucketsResult = Except.ok buckets ∧
        e ∈ (createEvents env buckets).1) ∨
      e ∈ processPolicies env ∨
      (∃ fs, env.readdirResult = Except.ok fs ∧ e ∈ (processFiles env fs).1) ∨
      (∃ fs, env.readdirResult = Except.ok fs ∧ (processFiles env fs).2 = true ∧
        e ∈ helperEvs env) := by
  intro e he
  unfold run at he
  rcases ht : tryBody env with ⟨evs, b⟩
  rw [ht] at he
  have hmem : ∀ x ∈ evs, x ∈ (tryBody env).1 := by
    intro x hx; rw [ht]; exact hx
  have step : e ∈ evs →
      e = Event.listBuckets ∨ e = Event.logSetupFailed ∨
      e = Event.enableRls "objects" "storage" ∨ e = Event.readImagesDir ∨
      (∃ buckets, env.listBucketsResult = Except.ok buckets ∧
        e ∈ (createEvents env buckets).1) ∨
      e ∈ processPolicies env ∨
      (∃ fs, env.readdirResult = Except.ok fs ∧ e ∈ (processFiles env fs).1) ∨
      (∃ fs, env.readdirResult = Except.ok fs ∧ (processFiles env fs).2 = true ∧
        e ∈ helperEvs env) := by
    intro h
    rcases tryBody_events_cases env e (hmem e h) with h | h
    · exact Or.inl h
    · exact Or.inr (Or.inr h)
  cases b
  · simp only [List.mem_append, List.mem_singleton] at he
    rcases he with h | h
    · exact step h
    · exact Or.inr (Or.inl h)
  · exact step he

lemma run_reach_files (env : Env) (buckets files : List String) (r : Option String)
    (h1 : env.listBucketsResult = Except.ok buckets)
    (h2 : buckets.any (fun bucket => bucket == BUCKET_NAME) = true ∨
      env.createBucketError = none)
    (h3 : env.enableRlsOutcome = RpcOutcome.returned r)
    (h4 : env.readdirResult = Except.ok files) :
    run env =
      if (processFiles env files).2 then
        ⟨Event.listBuckets :: (createEvents env buckets).1 ++
          Event.enableRls "objects" "storage" :: processPolicies env ++
          Event.readImagesDir :: (processFiles env files).1 ++ helperEvs env, 0⟩
      else
        ⟨Event.listBuckets :: (createEvents env buckets).1 ++
          Event.enableRls "objects" "storage" :: processPolicies env ++
          Event.readImagesDir :: (processFiles env files).1 ++
          [Event.logSetupFailed], 1⟩ := by
  have hc := createEvents_ok env buckets h2
  unfold run tryBody
  rw [h1]
  rcases hce : createEvents env buckets with ⟨cevs, cb⟩
  rw [hce] at hc; simp only at hc; subst hc
  rw [h3, h4]
  rcases hpf : processFiles env files with ⟨fevs, fb⟩
  cases fb <;> simp [hce, hpf]

lemma processFiles_ok (env : Env) :
    ∀ fs, (∀ f ∈ fs, isImageFile f = true → ∃ c, env.readFileResult f = Except.ok c) →
      (processFiles env fs).2 = true := by
  intro fs
  induction fs with
  | nil => intro _; rfl
  | cons f fs ih =>
    intro h
    rw [processFiles]
    cases hf : isImageFile f
    · rw [if_neg (by simp)]
      exact ih (fun g hg hgi => h g (List.mem_cons_of_mem f hg) hgi)
    · rw [if_pos rfl]
      obtain ⟨c, hc⟩ := h f (List.mem_cons_self f fs) hf
      rw [hc]
      rcases hu : env.uploadError f with _ | u <;>
        exact ih (fun g hg hgi => h g (List.mem_cons_of_mem f hg) hgi)

lemma processFiles_filter_read (env : Env) :
    ∀ fs, (∀ f ∈ fs, isImageFile f = true → ∃ c, env.readFileResult f = Except.ok c) →
      (processFiles env fs).1.filter isReadFileEv =
        (fs.filter isImageFile).map Event.readFile := by
  intro fs
  induction fs with
  | nil => intro _; rfl
  | cons f fs ih =>
    intro h
    have iht := ih (fun g hg hgi => h g (List.mem_cons_of_mem f hg) hgi)
    rw [processFiles]
    cases hf : isImageFile f
    · rw [if_neg (by simp)]
      rw [List.filter_cons_of_neg (by simp [hf])]
      exact iht
    · rw [if_pos rfl]
      obtain ⟨c, hc⟩ := h f (List.mem_cons_self f fs) hf
      rw [hc]
      rw [List.filter_cons_of_pos hf]
      rcases hu : env.uploadError f with _ | u <;>
        simp [isReadFileEv, iht]

lemma processFiles_filter_upload (env : Env) :
    ∀ fs, (∀ f ∈ fs, isImageFile f = true → ∃ c, env.readFileResult f = Except.ok c) →
      ((processFiles env fs).1.filter isUploadEv).length =
        (fs.filter isImageFile).length := by
  intro fs
  induction fs with
  | nil => intro _; rfl
  | cons f fs ih =>
    intro h
    have iht := ih (fun g hg hgi => h g (List.mem_cons_of_mem f hg) hgi)
    rw [processFiles]
    cases hf : isImageFile f
    · rw [if_neg (by simp)]
      rw [List.filter_cons_of_neg (by simp [hf])]
      exact iht
    · rw [if_pos rfl]
      obtain ⟨c, hc⟩ := h f (List.mem_cons_self f fs) hf
      rw [hc]
      rw [List.filter_cons_of_pos hf]
      rcases hu : env.uploadError f with _ | u <;>
        simp [isUploadEv, iht]

lemma processFiles_upload_mem (env : Env) :
    ∀ fs b p c t u, Event.upload b p c t u ∈ (processFiles env fs).1 →
      b = BUCKET_NAME ∧ u = true ∧
      ∃ f, f ∈ fs ∧ isImageFile f = true ∧ p = "product-images/" ++ f ∧
        t = "image/" ++ dropStr 1 (extname f) ∧ env.readFileResult f = Except.ok c := by
  intro fs
  induction fs with
  | nil => intro b p c t u h; simp [processFiles] at h
  | cons f fs ih =>
    intro b p c t u he
    rw [processFiles] at he
    cases hf : isImageFile f
    · rw [if_neg (by simp [hf])] at he
      obtain ⟨hb, hu, g, hg, hrest⟩ := ih b p c t u he
      exact ⟨hb, hu, g, List.mem_cons_of_mem f hg, hrest⟩
    · rw [if_pos (by simp [hf])] at he
      rcases hr : env.readFileResult f with m | cf <;> rw [hr] at he
      · simp at he
      · rcases hup : env.uploadError f with _ | u' <;> rw [hup] at he <;>
          simp only [List.mem_cons] at he
        · rcases he with h | h | h | h
          · simp at h
          · simp only [Event.upload.injEq] at h
            obtain ⟨hb, hp, hcc, ht, hu⟩ := h
            subst hcc
            exact ⟨hb, hu, f, List.mem_cons_self f fs, hf, hp, ht, hr⟩
          · simp at h
          · obtain ⟨hb, hu, g, hg, hrest⟩ := ih b p c t u h
            exact ⟨hb, hu, g, List.mem_cons_of_mem f hg, hrest⟩
        · rcases he with h | h | h | h
          · simp at h
          · simp only [Event.upload.injEq] at h
            obtain ⟨hb, hp, hcc, ht, hu⟩ := h
            subst hcc
            exact ⟨hb, hu, f, List.mem_cons_self f fs, hf, hp, ht, hr⟩
          · simp at h
          · obtain ⟨hb, hu, g, hg, hrest⟩ := ih b p c t u h
            exact ⟨hb, hu, g, List.mem_cons_of_mem f hg, hrest⟩

lemma processFiles_abort (env : Env) (f m : String)
    (hf : isImageFile f = true) (hr : env.readFileResult f = Except.error m) :
    ∀ fs1, (∀ g ∈ fs1, isImageFile g = true → ∃ c, env.readFileResult g = Except.ok c) →
      ∀ fs2, processFiles env (fs1 ++ f :: fs2) =
        ((processFiles env fs1).1 ++ [Event.readFile f], false) := by
  intro fs1
  induction fs1 with
  | nil =>
    intro _ fs2
    simp only [List.nil_append]
    conv_lhs => rw [processFiles]
    rw [if_pos (by simp [hf]), hr]
    rfl
  | cons g fs1 ih =>
    intro hok fs2
    have ihg := ih (fun x hx hxi => hok x (List.mem_cons_of_mem g hx) hxi) fs2
    simp only [List.cons_append]
    conv_lhs => rw [processFiles]
    conv_rhs => rw [processFiles]
    cases hg : isImageFile g
    · rw [if_neg (by simp), if_neg (by simp)]
      exact ihg
    · rw [if_pos rfl, if_pos rfl]
      obtain ⟨c, hc⟩ := hok g (List.mem_cons_self g fs1) hg
      rw [hc]
      rcases hu : env.uploadError g with _ | u <;>
        simp [ihg]

lemma policyEvents_filter_create (env : Env) (p : String × String) :
    (policyEvents env p).filter isCreatePolicyEv =
      [Event.createPolicy BUCKET_NAME (policyKey p.1) p.2] := by
  unfold policyEvents
  rcases ho : env.createPolicyOutcome (policyKey p.1) with msg | er
  · cases hi : includesStr msg "already exists" <;>
      simp [hi, isCreatePolicyEv]
  · simp [isCreatePolicyEv]

lemma processPolicies_filter_create (env : Env) :
    (processPolicies env).filter isCreatePolicyEv =
      policies.map (fun p => Event.createPolicy BUCKET_NAME (policyKey p.1) p.2) := by
  unfold processPolicies
  generalize policies = l
  induction l with
  | nil => rfl
  | cons p l ih =>
    simp only [List.flatMap_cons, List.map_cons, List.filter_append,
      policyEvents_filter_create, ih]
    rfl

lemma createPolicy_mem_policyEvents (env : Env) (p : String × String) :
    Event.createPolicy BUCKET_NAME (policyKey p.1) p.2 ∈ policyEvents env p :=
  List.mem_cons_self _ _

lemma policyEvents_returned (env : Env) (p : String × String) (er : Option String)
    (ho : env.createPolicyOutcome (policyKey p.1) = RpcOutcome.returned er) :
    policyEvents env p = [Event.createPolicy BUCKET_NAME (policyKey p.1) p.2] := by
  unfold policyEvents
  rw [ho]

lemma policyEvents_thrown_tolerated (env : Env) (p : String × String) (msg : String)
    (ho : env.createPolicyOutcome (policyKey p.1) = RpcOutcome.thrown msg)
    (hi : includesStr msg "already exists" = true) :
    policyEvents env p =
      [Event.createPolicy BUCKET_NAME (policyKey p.1) p.2,
       Event.logPolicyExists p.1] := by
  unfold policyEvents
  rw [ho]
  simp [hi]

lemma policyEvents_thrown_logged (env : Env) (p : String × String) (msg : String)
    (ho : env.createPolicyOutcome (policyKey p.1) = RpcOutcome.thrown msg)
    (hi : includesStr msg "already exists" = false) :
    policyEvents env p =
      [Event.createPolicy BUCKET_NAME (policyKey p.1) p.2,
       Event.logPolicyError p.1] := by
  unfold policyEvents
  rw [ho]
  simp [hi]

lemma mem_policyEvents_cases (env : Env) (p : String × String) (e : Event)
    (he : e ∈ policyEvents env p) :
    e = Event.createPolicy BUCKET_NAME (policyKey p.1) p.2 ∨
    (e = Event.logPolicyExists p.1 ∧ ∃ msg,
      env.createPolicyOutcome (policyKey p.1) = RpcOutcome.thrown msg ∧
      includesStr msg "already exists" = true) ∨
    (e = Event.logPolicyError p.1 ∧ ∃ msg,
      env.createPolicyOutcome (policyKey p.1) = RpcOutcome.thrown msg ∧
      includesStr msg "already exists" = false) := by
  rcases ho : env.createPolicyOutcome (policyKey p.1) with msg | er
  · cases hi : includesStr msg "already exists"
    · rw [policyEvents_thrown_logged env p msg ho hi] at he
      simp only [List.mem_cons, List.not_mem_nil, or_false] at he
      rcases he with h | h
      · exact Or.inl h
      · exact Or.inr (Or.inr ⟨h, msg, rfl, hi⟩)
    · rw [policyEvents_thrown_tolerated env p msg ho hi] at he
      simp only [List.mem_cons, List.not_mem_nil, or_false] at he
      rcases he with h | h
      · exact Or.inl h
      · exact Or.inr (Or.inl ⟨h, msg, rfl, hi⟩)
  · rw [policyEvents_returned env p er ho] at he
    simp only [List.mem_cons, List.not_mem_nil, or_false] at he
    exact Or.inl he

set_option maxRecDepth 8192 in
lemma policy_names_unique :
    ∀ p ∈ policies, ∀ q ∈ policies, p.1 = q.1 → p = q := by decide

lemma processPolicies_all_returned (env : Env)
    (h : ∀ k, ∃ er, env.createPolicyOutcome k = RpcOutcome.returned er) :
    processPolicies env =
      policies.map (fun p => Event.createPolicy BUCKET_NAME (policyKey p.1) p.2) := by
  unfold processPolicies
  generalize policies = l
  induction l with
  | nil => rfl
  | cons p l ih =>
    obtain ⟨er, her⟩ := h (policyKey p.1)
    simp only [List.flatMap_cons, List.map_cons, ih]
    unfold policyEvents
    rw [her]
    rfl

lemma processFiles_congr (e1 e2 : Env)
    (hr : e1.readFileResult = e2.readFileResult)
    (hu : e1.uploadError = e2.uploadError) :
    processFiles e1 = processFiles e2 := by
  funext fs
  induction fs with
  | nil => rfl
  | cons f fs ih =>
    rw [processFiles, processFiles, hr, hu, ih]

lemma processPolicies_congr (e1 e2 : Env)
    (hc : e1.createPolicyOutcome = e2.createPolicyOutcome) :
    processPolicies e1 = processPolicies e2 := by
  unfold processPolicies policyEvents
  rw [hc]

lemma run_congr (e1 e2 : Env)
    (hl : e2.listBucketsResult = e1.listBucketsResult)
    (hcb : e2.createBucketError = e1.createBucketError)
    (hrls : e2.enableRlsOutcome = e1.enableRlsOutcome ∨
      (∃ a b, e1.enableRlsOutcome = RpcOutcome.returned a ∧
        e2.enableRlsOutcome = RpcOutcome.returned b))
    (hpol : processPolicies e2 = processPolicies e1)
    (hrd : e2.readdirResult = e1.readdirResult)
    (hrf : e2.readFileResult = e1.readFileResult)
    (hup : e2.uploadError = e1.uploadError)
    (hud : e2.utilsDirExists = e1.utilsDirExists) :
    run e2 = run e1 := by
  have hceF : createEvents e2 = createEvents e1 := by
    funext b; unfold createEvents; rw [hcb]
  have hpfF : processFiles e2 = processFiles e1 := processFiles_congr e2 e1 hrf hup
  have hheF : helperEvs e2 = helperEvs e1 := by
    unfold helperEvs; rw [hud]
  unfold run tryBody
  rw [hl, hrd, hceF, hpfF, hpol, hheF]
  rcases hrls with h | ⟨a, b, ha, hb⟩
  · rw [h]
  · rw [ha, hb]

lemma helperCode_inj (b1 b2 : String) (h : helperCode b1 = helperCode b2) :
    b1 = b2 := by
  have hd := congrArg String.data h
  simp only [helperCode, String.data_append, List.append_assoc] at hd
  have h2 := List.append_cancel_left hd
  have h3 := List.append_cancel_right h2
  exact congrArg String.mk h3

lemma filter_nil_of_all {l : List Event} {P Q : Event → Bool}
    (hl : ∀ e ∈ l, P e = true) (hPQ : ∀ e, P e = true → Q e = false) :
    l.filter Q = [] :=
  List.filter_eq_nil_iff.mpr fun e he => by simp [hPQ e (hl e he)]

lemma run_create_abort (env : Env) (buckets : List String) (e : String)
    (h1 : env.listBucketsResult = Except.ok buckets)
    (habs : buckets.any (fun bucket => bucket == BUCKET_NAME) = false)
    (herr : env.createBucketError = some e) :
    run env = ⟨[Event.listBuckets,
      Event.createBucket BUCKET_NAME true (1024 * 1024 * 2),
      Event.logSetupFailed], 1⟩ := by
  have hce : createEvents env buckets =
      ([Event.createBucket BUCKET_NAME true (1024 * 1024 * 2)], false) := by
    unfold createEvents
    rw [if_neg (by simp [habs]), herr]
  unfold run tryBody
  rw [h1]
  simp [hce]

lemma run_filter_createBucket (env : Env) (buckets : List String)
    (h1 : env.listBucketsResult = Except.ok buckets) :
    (run env).events.filter isCreateBucketEv = (createEvents env buckets).1 := by
  have hpolN : (processPolicies env).filter isCreateBucketEv = [] :=
    filter_nil_of_all (processPolicies_kinds env)
      (by intro e h; cases e <;> simp_all [isPolicyStageEv, isCreateBucketEv])
  have hfileN : ∀ fs, ((processFiles env fs).1).filter isCreateBucketEv = [] :=
    fun fs => filter_nil_of_all (processFiles_kinds env fs)
      (by intro e h; cases e <;> simp_all [isFileStageEv, isCreateBucketEv])
  have hhelpN : (helperEvs env).filter isCreateBucketEv = [] :=
    List.filter_eq_nil_iff.mpr (fun e he => by
      rcases helperEvs_mem env e he with h | h <;> subst h <;> simp [isCreateBucketEv])
  have hcevs : (createEvents env buckets).1.filter isCreateBucketEv =
      (createEvents env buckets).1 := by
    rw [List.filter_eq_self]
    intro e he
    rw [(createEvents_mem env buckets e he).1]
    rfl
  unfold run tryBody
  rw [h1]
  rcases hce : createEvents env buckets with ⟨cevs, cb⟩
  rw [hce] at hcevs
  simp only at hcevs
  cases cb
  · simp [hce, List.filter_cons, isCreateBucketEv, hcevs]
  · rcases hrls : env.enableRlsOutcome with msg | er
    · simp [hce, List.filter_cons, List.filter_append, isCreateBucketEv, hcevs]
    · rcases hrd : env.readdirResult with m | fs
      · simp [hce, List.filter_cons, List.filter_append, isCreateBucketEv, hcevs,
          hpolN]
      · rcases hpf : processFiles env fs with ⟨fevs, fb⟩
        have hfN := hfileN fs
        rw [hpf] at hfN
        simp only at hfN
        cases fb <;>
          simp [hce, hpf, List.filter_cons, List.filter_append, isCreateBucketEv,
            hcevs, hpolN, hfN, hhelpN]

/-- A run environment whose bucket-listing call reports an error. -/
def envListErr : Env :=
  { listBucketsResult := Except.error "boom",
    createBucketError := none,
    enableRlsOutcome := RpcOutcome.returned none,
    createPolicyOutcome := fun _ => RpcOutcome.returned none,
    readdirResult := Except.ok [],
    readFileResult := fun _ => Except.ok [],
    uploadError := fun _ => none,
    utilsDirExists := true }

/-- A fully succeeding run environment: the bucket already exists and
the images directory holds the scenario files. -/
def envHappy : Env :=
  { listBucketsResult := Except.ok ["disc-product-images"],
    createBucketError := none,
    enableRlsOutcome := RpcOutcome.returned none,
    createPolicyOutcome := fun _ => RpcOutcome.returned none,
    readdirResult := Except.ok ["a.png", "b.txt", "c.JPG"],
    readFileResult := fun _ => Except.ok [1, 2],
    uploadError := fun _ => none,
    utilsDirExists := false }

/-- Like `envHappy` but the configured bucket is absent from the listing. -/
def envCreate : Env := { envHappy with listBucketsResult := Except.ok ["other"] }

/-- Like `envCreate` but the create-bucket call reports an error. -/
def envCreateErr : Env := { envCreate with createBucketError := some "denied" }

/-- C1: if the container-listing call reports an error, the whole trace
is the listing call followed by the failure log and the exit code is 1,
so no policy creation, no upload and no helper write is attempted; when
listing succeeds, bucket creation is skipped or succeeds, enabling RLS
returns, the directory listing succeeds and every matched file read
succeeds, the exit code is 0 whatever the per-policy and per-file
outcomes are. -/
theorem listing_error_fatal_else_exit_zero (env : Env) :
    (∀ m, env.listBucketsResult = Except.error m →
      run env = ⟨[Event.listBuckets, Event.logSetupFailed], 1⟩) ∧
    (∀ buckets r files,
      env.listBucketsResult = Except.ok buckets →
      (buckets.any (fun bucket => bucket == BUCKET_NAME) = true ∨
        env.createBucketError = none) →
      env.enableRlsOutcome = RpcOutcome.returned r →
      env.readdirResult = Except.ok files →
      (∀ f ∈ files, isImageFile f = true → ∃ c, env.readFileResult f = Except.ok c) →
      (run env).exitCode = 0) := by
  constructor
  · intro m h
    unfold run tryBody
    rw [h]
    rfl
  · intro buckets r files h1 h2 h3 h4 h5
    rw [run_reach_files env buckets files r h1 h2 h3 h4,
      if_pos (processFiles_ok env files h5)]

/-- Witness for C1: the listing-error environment aborts with exit code
1, the fully succeeding environment exits 0. -/
theorem listing_error_fatal_else_exit_zero_witness :
    run envListErr = ⟨[Event.listBuckets, Event.logSetupFailed], 1⟩ ∧
    (run envHappy).exitCode = 0 :=
  ⟨(listing_error_fatal_else_exit_zero envListErr).1 "boom" rfl,
   (listing_error_fatal_else_exit_zero envHappy).2
     ["disc-product-images"] none ["a.png", "b.txt", "c.JPG"]
     rfl (Or.inl (by decide)) rfl rfl (fun f _ _ => ⟨[1, 2], rfl⟩)⟩

/-- C2: when the listed bucket names contain the configured name, no
create-bucket request appears in the trace; when the name is absent, the
create-bucket requests in the trace are exactly one with that name, and
a creation error makes the whole run abort with exit code 1 right after
the create call. -/
theorem bucket_create_iff_absent (env : Env) (buckets : List String)
    (h1 : env.listBucketsResult = Except.ok buckets) :
    (buckets.any (fun bucket => bucket == BUCKET_NAME) = true →
      ∀ n p s, Event.createBucket n p s ∉ (run env).events) ∧
    (buckets.any (fun bucket => bucket == BUCKET_NAME) = false →
      (run env).events.filter isCreateBucketEv =
        [Event.createBucket BUCKET_NAME true (1024 * 1024 * 2)] ∧
      ∀ e, env.createBucketError = some e →
        run env = ⟨[Event.listBuckets,
          Event.createBucket BUCKET_NAME true (1024 * 1024 * 2),
          Event.logSetupFailed], 1⟩) := by
  constructor
  · intro hex n p s hmem
    have hfilt := run_filter_createBucket env buckets h1
    have hce : createEvents env buckets = ([], true) := by
      unfold createEvents; rw [if_pos hex]
    rw [hce] at hfilt
    have : Event.createBucket n p s ∈ (run env).events.filter isCreateBucketEv :=
      List.mem_filter.mpr ⟨hmem, rfl⟩
    rw [hfilt] at this
    simp at this
  · intro habs
    constructor
    · have hfilt := run_filter_createBucket env buckets h1
      rw [hfilt]
      unfold createEvents
      rw [if_neg (by simp [habs])]
      rcases env.createBucketError with _ | e <;> rfl
    · intro e herr
      exact run_create_abort env buckets e h1 habs herr

/-- Witness for C2 at concrete environments: with the bucket present no
create event occurs; with it absent and creation failing, the run is
exactly listing, creation, failure log. -/
theorem bucket_create_iff_absent_witness :
    (Event.createBucket "disc-product-images" true 2097152 ∉ (run envHappy).events) ∧
    run envCreateErr = ⟨[Event.listBuckets,
      Event.createBucket BUCKET_NAME true (1024 * 1024 * 2),
      Event.logSetupFailed], 1⟩ :=
  ⟨(bucket_create_iff_absent envHappy ["disc-product-images"] rfl).1
      (by decide) "disc-product-images" true 2097152,
   ((bucket_create_iff_absent envCreateErr ["other"] rfl).2 (by decide)).2
      "denied" rfl⟩

/-- C10: every create-bucket request in any run carries the configured
bucket name, the public flag set to true, and a size limit of exactly
2097152 bytes (2 MiB, written 1024 * 1024 * 2 in the script). -/
theorem bucket_created_public_2mib (env : Env) :
    ∀ n p s, Event.createBucket n p s ∈ (run env).events →
      n = BUCKET_NAME ∧ p = true ∧ s = 2097152 := by
  intro n p s hmem
  rcases run_events_cases env _ hmem with h | h | h | h | ⟨buckets, hb, h⟩ | h |
    ⟨fs, hfs, h⟩ | ⟨fs, hfs, hok, h⟩
  · simp at h
  · simp at h
  · simp at h
  · simp at h
  · have he := (createEvents_mem env buckets _ h).1
    simp only [Event.createBucket.injEq] at he
    exact ⟨he.1, he.2.1, by rw [he.2.2]⟩
  · have hk := processPolicies_kinds env _ h
    simp [isPolicyStageEv] at hk
  · have hk := processFiles_kinds env fs _ h
    simp [isFileStageEv] at hk
  · rcases helperEvs_mem env _ h with h | h <;> simp at h

/-- Witness for C10: the creating environment issues the expected
request and the theorem applies to it. -/
theorem bucket_created_public_2mib_witness :
    Event.createBucket "disc-product-images" true 2097152 ∈ (run envCreate).events ∧
    ("disc-product-images" = BUCKET_NAME ∧ true = true ∧ 2097152 = 2097152) :=
  ⟨by decide,
   bucket_created_public_2mib envCreate "disc-product-images" true 2097152 (by decide)⟩

lemma run_policy_stage_mem (env : Env) (buckets : List String) (r : Option String)
    (h1 : env.listBucketsResult = Except.ok buckets)
    (h2 : buckets.any (fun bucket => bucket == BUCKET_NAME) = true ∨
      env.createBucketError = none)
    (h3 : env.enableRlsOutcome = RpcOutcome.returned r) :
    Event.enableRls "objects" "storage" ∈ (run env).events ∧
    ∀ e ∈ processPolicies env, e ∈ (run env).events := by
  have hc := createEvents_ok env buckets h2
  unfold run tryBody
  rw [h1]
  rcases hce : createEvents env buckets with ⟨cevs, cb⟩
  rw [hce] at hc
  simp only at hc
  subst hc
  rw [h3]
  rcases hrd : env.readdirResult with m | fs
  · constructor
    · simp [hce]
    · intro e he
      simp [hce, he]
  · rcases hpf : processFiles env fs with ⟨fevs, fb⟩
    cases fb
    · constructor
      · simp [hce, hpf]
      · intro e he
        simp [hce, hpf, he]
    · constructor
      · simp [hce, hpf]
      · intro e he
        simp [hce, hpf, he]

/-- An environment whose first policy call throws an "already exists"
error and whose other policy calls throw an unrelated error. -/
def envPolThrow : Env :=
  { envHappy with createPolicyOutcome := fun k =>
      if k == "allow_public_uploads" then RpcOutcome.thrown "policy already exists"
      else RpcOutcome.thrown "permission denied" }

/-- C3: for each of the four policies, every policy-creation call is
issued whatever the other calls did; a thrown error whose message
includes "already exists" yields the already-exists log and no error
log for that policy, and any other thrown error yields the error log —
in both cases the remaining policy creations still appear in the trace. -/
theorem policy_exists_tolerated_others_logged (env : Env) (buckets : List String)
    (r : Option String)
    (h1 : env.listBucketsResult = Except.ok buckets)
    (h2 : buckets.any (fun bucket => bucket == BUCKET_NAME) = true ∨
      env.createBucketError = none)
    (h3 : env.enableRlsOutcome = RpcOutcome.returned r) :
    (∀ p ∈ policies,
      Event.createPolicy BUCKET_NAME (policyKey p.1) p.2 ∈ (run env).events) ∧
    (∀ p ∈ policies, ∀ msg,
      env.createPolicyOutcome (policyKey p.1) = RpcOutcome.thrown msg →
      (includesStr msg "already exists" = true →
        Event.logPolicyExists p.1 ∈ (run env).events ∧
        Event.logPolicyError p.1 ∉ (run env).events) ∧
      (includesStr msg "already exists" = false →
        Event.logPolicyError p.1 ∈ (run env).events)) := by
  have hsub := (run_policy_stage_mem env buckets r h1 h2 h3).2
  constructor
  · intro p hp
    exact hsub _ (List.mem_flatMap.mpr ⟨p, hp, createPolicy_mem_policyEvents env p⟩)
  · intro p hp msg ho
    constructor
    · intro hi
      constructor
      · refine hsub _ (List.mem_flatMap.mpr ⟨p, hp, ?_⟩)
        rw [policyEvents_thrown_tolerated env p msg ho hi]
        simp
      · intro hmem
        rcases run_events_cases env _ hmem with h | h | h | h | ⟨bks, hb, h⟩ | h |
          ⟨fs, hfs, h⟩ | ⟨fs, hfs, hok, h⟩
        · simp at h
        · simp at h
        · simp at h
        · simp at h
        · have := (createEvents_mem env bks _ h).1
          simp at this
        · obtain ⟨q, hq, hqm⟩ := List.mem_flatMap.mp h
          rcases mem_policyEvents_cases env q _ hqm with h' | ⟨h', _⟩ |
            ⟨h', msg', ho', hi'⟩
          · simp at h'
          · simp at h'
          · have h12 : p.1 = q.1 := by injection h'
            have hqp : q = p := policy_names_unique q hq p hp h12.symm
            subst hqp
            have hmm := ho.symm.trans ho'
            injection hmm with hmsg
            subst hmsg
            rw [hi] at hi'
            exact Bool.noConfusion hi'
        · have hk := processFiles_kinds env fs _ h
          simp [isFileStageEv] at hk
        · rcases helperEvs_mem env _ h with h | h <;> simp at h
    · intro hi
      refine hsub _ (List.mem_flatMap.mpr ⟨p, hp, ?_⟩)
      rw [policyEvents_thrown_logged env p msg ho hi]
      simp

/-- Witness for C3: with the first policy call throwing an
"already exists" error and the others throwing a different error, the
first policy gets the tolerated log and no error log, the second gets
the error log, and the fourth policy call is still issued. -/
theorem policy_exists_tolerated_others_logged_witness :
    Event.logPolicyExists "Allow public uploads" ∈ (run envPolThrow).events ∧
    Event.logPolicyError "Allow public uploads" ∉ (run envPolThrow).events ∧
    Event.logPolicyError "Allow public reads" ∈ (run envPolThrow).events ∧
    Event.createPolicy BUCKET_NAME (policyKey "Allow public deletes")
      (policies.get ⟨3, by decide⟩).2 ∈ (run envPolThrow).events := by
  have h := policy_exists_tolerated_others_logged envPolThrow
    ["disc-product-images"] none rfl (Or.inl (by decide)) rfl
  have h0 := h.2 (policies.get ⟨0, by decide⟩) (policies.get_mem 0 (by decide))
    "policy already exists" (by decide)
  have h1 := h.2 (policies.get ⟨1, by decide⟩) (policies.get_mem 1 (by decide))
    "permission denied" (by decide)
  exact ⟨(h0.1 (by decide)).1, (h0.1 (by decide)).2, h1.2 (by decide),
    h.1 (policies.get ⟨3, by decide⟩) (policies.get_mem 3 (by decide))⟩

lemma createEvents_kinds (env : Env) (buckets : List String) :
    ∀ e ∈ (createEvents env buckets).1, isCreateBucketEv e = true :=
  fun e he => by rw [(createEvents_mem env buckets e he).1]; rfl

lemma helperEvs_filter_nil (env : Env) {Q : Event → Bool}
    (h1 : Q Event.mkdirUtils = false)
    (h2 : ∀ n c, Q (Event.writeFileUtils n c) = false) :
    (helperEvs env).filter Q = [] :=
  List.filter_eq_nil_iff.mpr fun e he => by
    rcases helperEvs_mem env e he with h | h <;> subst h <;> simp [h1, h2]

/-- C4: on a run that reaches the upload loop with all matched reads
succeeding, the file-read attempts are exactly the directory entries
whose name matches the image-extension test, in order, and the number
of upload requests equals the number of matching entries — whatever the
individual upload outcomes are. -/
theorem image_extension_filter_drives_uploads (env : Env)
    (buckets files : List String) (r : Option String)
    (h1 : env.listBucketsResult = Except.ok buckets)
    (h2 : buckets.any (fun bucket => bucket == BUCKET_NAME) = true ∨
      env.createBucketError = none)
    (h3 : env.enableRlsOutcome = RpcOutcome.returned r)
    (h4 : env.readdirResult = Except.ok files)
    (h5 : ∀ f ∈ files, isImageFile f = true → ∃ c, env.readFileResult f = Except.ok c) :
    (run env).events.filter isReadFileEv =
      (files.filter isImageFile).map Event.readFile ∧
    ((run env).events.filter isUploadEv).length =
      (files.filter isImageFile).length := by
  rw [run_reach_files env buckets files r h1 h2 h3 h4,
    if_pos (processFiles_ok env files h5)]
  have hcN1 : (createEvents env buckets).1.filter isReadFileEv = [] :=
    filter_nil_of_all (createEvents_kinds env buckets)
      (by intro e h; cases e <;> simp_all [isCreateBucketEv, isReadFileEv])
  have hcN2 : (createEvents env buckets).1.filter isUploadEv = [] :=
    filter_nil_of_all (createEvents_kinds env buckets)
      (by intro e h; cases e <;> simp_all [isCreateBucketEv, isUploadEv])
  have hpN1 : (processPolicies env).filter isReadFileEv = [] :=
    filter_nil_of_all (processPolicies_kinds env)
      (by intro e h; cases e <;> simp_all [isPolicyStageEv, isReadFileEv])
  have hpN2 : (processPolicies env).filter isUploadEv = [] :=
    filter_nil_of_all (processPolicies_kinds env)
      (by intro e h; cases e <;> simp_all [isPolicyStageEv, isUploadEv])
  have hhN1 : (helperEvs env).filter isReadFileEv = [] :=
    helperEvs_filter_nil env rfl (fun n c => rfl)
  have hhN2 : (helperEvs env).filter isUploadEv = [] :=
    helperEvs_filter_nil env rfl (fun n c => rfl)
  constructor
  · simp [List.filter_append, List.filter_cons, isReadFileEv, hcN1, hpN1, hhN1,
      processFiles_filter_read env files h5]
  · simp [List.filter_append, List.filter_cons, isUploadEv, hcN2, hpN2, hhN2,
      processFiles_filter_upload env files h5]

/-- Witness for C4: for the directory `a.png`, `b.txt`, `c.JPG` exactly
`a.png` and `c.JPG` are read and exactly two uploads are attempted. -/
theorem image_extension_filter_drives_uploads_witness :
    (run envHappy).events.filter isReadFileEv =
      [Event.readFile "a.png", Event.readFile "c.JPG"] ∧
    ((run envHappy).events.filter isUploadEv).length = 2 := by
  have h := image_extension_filter_drives_uploads envHappy
    ["disc-product-images"] ["a.png", "b.txt", "c.JPG"] none
    rfl (Or.inl (by decide)) rfl rfl (fun f _ _ => ⟨[1, 2], rfl⟩)
  constructor
  · rw [h.1]; decide
  · rw [h.2]; decide

/-- C5: every run reaching the helper step writes `storageHelper.ts`
with exactly the template instantiated at the configured bucket name;
that content contains the bucket name as a substring, and the template
is injective in the bucket name, so changing the constant changes the
written content. -/
theorem helper_always_rewritten_with_bucket (env : Env)
    (buckets files : List String) (r : Option String)
    (h1 : env.listBucketsResult = Except.ok buckets)
    (h2 : buckets.any (fun bucket => bucket == BUCKET_NAME) = true ∨
      env.createBucketError = none)
    (h3 : env.enableRlsOutcome = RpcOutcome.returned r)
    (h4 : env.readdirResult = Except.ok files)
    (h5 : ∀ f ∈ files, isImageFile f = true → ∃ c, env.readFileResult f = Except.ok c) :
    Event.writeFileUtils "storageHelper.ts" (helperCode BUCKET_NAME) ∈
      (run env).events ∧
    includesStr (helperCode BUCKET_NAME) BUCKET_NAME = true ∧
    ∀ b1 b2 : String, helperCode b1 = helperCode b2 → b1 = b2 := by
  refine ⟨?_, by decide, helperCode_inj⟩
  rw [run_reach_files env buckets files r h1 h2 h3 h4,
    if_pos (processFiles_ok env files h5)]
  simp [helperEvs]

/-- Witness for C5 at the fully succeeding environment. -/
theorem helper_always_rewritten_with_bucket_witness :
    Event.writeFileUtils "storageHelper.ts" (helperCode BUCKET_NAME) ∈
      (run envHappy).events ∧
    includesStr (helperCode BUCKET_NAME) BUCKET_NAME = true :=
  have h := helper_always_rewritten_with_bucket envHappy
    ["disc-product-images"] ["a.png", "b.txt", "c.JPG"] none
    rfl (Or.inl (by decide)) rfl rfl (fun f _ _ => ⟨[1, 2], rfl⟩)
  ⟨h.1, h.2.1⟩

/-- C6: every upload request in any run targets the configured bucket,
stores under `product-images/` followed by the file name, has upsert
enabled, and carries content type `image/` followed by the file's
extension without its dot, with the uploaded bytes being the file's
content. -/
theorem upload_path_type_upsert (env : Env) :
    ∀ b p c t u, Event.upload b p c t u ∈ (run env).events →
      b = BUCKET_NAME ∧ u = true ∧
      ∃ f, isImageFile f = true ∧ p = "product-images/" ++ f ∧
        t = "image/" ++ dropStr 1 (extname f) ∧
        env.readFileResult f = Except.ok c := by
  intro b p c t u hmem
  rcases run_events_cases env _ hmem with h | h | h | h | ⟨bks, hb, h⟩ | h |
    ⟨fs, hfs, h⟩ | ⟨fs, hfs, hok, h⟩
  · simp at h
  · simp at h
  · simp at h
  · simp at h
  · have := (createEvents_mem env bks _ h).1
    simp at this
  · have hk := processPolicies_kinds env _ h
    simp [isPolicyStageEv] at hk
  · obtain ⟨hbk, hu, f, _, hfi, hp, ht, hr⟩ := processFiles_upload_mem env fs b p c t u h
    exact ⟨hbk, hu, f, hfi, hp, ht, hr⟩
  · rcases helperEvs_mem env _ h with h | h <;> simp at h

/-- Witness for C6: the upload of `a.png` in the succeeding environment
has the stated shape. -/
theorem upload_path_type_upsert_witness :
    Event.upload "disc-product-images" "product-images/a.png" [1, 2] "image/png" true
      ∈ (run envHappy).events ∧
    ("disc-product-images" = BUCKET_NAME ∧ true = true ∧
      ∃ f, isImageFile f = true ∧ "product-images/a.png" = "product-images/" ++ f ∧
        "image/png" = "image/" ++ dropStr 1 (extname f) ∧
        envHappy.readFileResult f = Except.ok [1, 2]) :=
  ⟨by decide, upload_path_type_upsert envHappy _ _ _ _ _ (by decide)⟩

lemma run_filter_createPolicy (env : Env) (buckets : List String) (r : Option String)
    (h1 : env.listBucketsResult = Except.ok buckets)
    (h2 : buckets.any (fun bucket => bucket == BUCKET_NAME) = true ∨
      env.createBucketError = none)
    (h3 : env.enableRlsOutcome = RpcOutcome.returned r) :
    (run env).events.filter isCreatePolicyEv =
      (processPolicies env).filter isCreatePolicyEv := by
  have hc := createEvents_ok env buckets h2
  have hcN : (createEvents env buckets).1.filter isCreatePolicyEv = [] :=
    filter_nil_of_all (createEvents_kinds env buckets)
      (by intro e h; cases e <;> simp_all [isCreateBucketEv, isCreatePolicyEv])
  have hfN : ∀ fs, ((processFiles env fs).1).filter isCreatePolicyEv = [] :=
    fun fs => filter_nil_of_all (processFiles_kinds env fs)
      (by intro e h; cases e <;> simp_all [isFileStageEv, isCreatePolicyEv])
  have hhN : (helperEvs env).filter isCreatePolicyEv = [] :=
    helperEvs_filter_nil env rfl (fun n c => rfl)
  unfold run tryBody
  rw [h1]
  rcases hce : createEvents env buckets with ⟨cevs, cb⟩
  rw [hce] at hc hcN
  simp only at hc hcN
  subst hc
  rw [h3]
  rcases hrd : env.readdirResult with m | fs
  · simp [hce, List.filter_append, List.filter_cons, isCreatePolicyEv, hcN]
  · rcases hpf : processFiles env fs with ⟨fevs, fb⟩
    have hfN2 := hfN fs
    rw [hpf] at hfN2
    simp only at hfN2
    cases fb <;>
      simp [hce, hpf, List.filter_append, List.filter_cons, isCreatePolicyEv,
        hcN, hfN2, hhN]

/-- C7: the result of the enable-RLS call has no influence — replacing
its returned value changes nothing in the run; the create-policy
requests of the trace are exactly the four fixed ones, each of whose
SQL definitions scopes to the container through an equality on
`bucket_id`, with the actions insert/select/update/delete one per rule
and the anonymous-role restriction exactly on the insert rule. -/
theorem rls_unchecked_and_four_scoped_policies (env : Env) (buckets : List String)
    (r : Option String)
    (h1 : env.listBucketsResult = Except.ok buckets)
    (h2 : buckets.any (fun bucket => bucket == BUCKET_NAME) = true ∨
      env.createBucketError = none)
    (h3 : env.enableRlsOutcome = RpcOutcome.returned r) :
    (∀ r', run { env with enableRlsOutcome := RpcOutcome.returned r' } = run env) ∧
    Event.enableRls "objects" "storage" ∈ (run env).events ∧
    (run env).events.filter isCreatePolicyEv =
      policies.map (fun p => Event.createPolicy BUCKET_NAME (policyKey p.1) p.2) ∧
    (∀ p ∈ policies,
      includesStr p.2 ("bucket_id = \x27" ++ BUCKET_NAME ++ "\x27") = true) ∧
    policies.map (fun p => (policyKey p.1, includesStr p.2 "FOR INSERT",
        includesStr p.2 "FOR SELECT", includesStr p.2 "FOR UPDATE",
        includesStr p.2 "FOR DELETE",
        includesStr p.2 "auth.role() = \x27anon\x27")) =
      [("allow_public_uploads", true, false, false, false, true),
       ("allow_public_reads", false, true, false, false, false),
       ("allow_public_updates", false, false, true, false, false),
       ("allow_public_deletes", false, false, false, true, false)] := by
  refine ⟨?_, (run_policy_stage_mem env buckets r h1 h2 h3).1, ?_, by decide, by decide⟩
  · intro r'
    exact run_congr env { env with enableRlsOutcome := RpcOutcome.returned r' }
      rfl rfl (Or.inr ⟨r, r', h3, rfl⟩)
      (processPolicies_congr _ _ rfl) rfl rfl rfl rfl
  · rw [run_filter_createPolicy env buckets r h1 h2 h3,
      processPolicies_filter_create]

/-- Witness for C7: swapping the enable-RLS returned value leaves the
succeeding run unchanged, whose trace contains exactly the four
create-policy requests. -/
theorem rls_unchecked_and_four_scoped_policies_witness :
    run { envHappy with enableRlsOutcome := RpcOutcome.returned (some "ignored") } =
      run envHappy ∧
    (run envHappy).events.filter isCreatePolicyEv =
      policies.map (fun p => Event.createPolicy BUCKET_NAME (policyKey p.1) p.2) :=
  have h := rls_unchecked_and_four_scoped_policies envHappy ["disc-product-images"]
    none rfl (Or.inl (by decide)) rfl
  ⟨h.1 (some "ignored"), h.2.2.1⟩

lemma no_policy_logs_when_returned (env : Env)
    (hret : ∀ k, ∃ er, env.createPolicyOutcome k = RpcOutcome.returned er) :
    ∀ n, Event.logPolicyError n ∉ (run env).events ∧
      Event.logPolicyExists n ∉ (run env).events := by
  intro n
  have hpol := processPolicies_all_returned env hret
  constructor <;> intro hmem <;>
    rcases run_events_cases env _ hmem with h | h | h | h | ⟨bks, hb, h⟩ | h |
      ⟨fs, hfs, h⟩ | ⟨fs, hfs, hok, h⟩ <;>
    first
    | simp at h
    | (rw [hpol] at h; simp [policies] at h)
    | (have hcb := (createEvents_mem env bks _ h).1; simp at hcb)
    | (have hk := processFiles_kinds env fs _ h; simp [isFileStageEv] at hk)
    | (rcases helperEvs_mem env _ h with h | h <;> simp at h)

/-- C8: when every policy call reports its failure only through the
returned result object, the run is identical whatever those returned
errors are, and no policy log — neither the error log nor the
already-exists log — appears: only thrown exceptions reach the
tolerance logic. -/
theorem returned_policy_errors_silently_ignored (env : Env)
    (e e' : String → Option String) :
    run { env with createPolicyOutcome := fun k => RpcOutcome.returned (e k) } =
      run { env with createPolicyOutcome := fun k => RpcOutcome.returned (e' k) } ∧
    ∀ n, Event.logPolicyError n ∉
        (run { env with createPolicyOutcome :=
          fun k => RpcOutcome.returned (e k) }).events ∧
      Event.logPolicyExists n ∉
        (run { env with createPolicyOutcome :=
          fun k => RpcOutcome.returned (e k) }).events := by
  constructor
  · refine run_congr _ _ rfl rfl (Or.inl rfl) ?_ rfl rfl rfl rfl
    have hA := processPolicies_all_returned
      { env with createPolicyOutcome := fun k => RpcOutcome.returned (e k) }
      (fun k => ⟨e k, rfl⟩)
    have hB := processPolicies_all_returned
      { env with createPolicyOutcome := fun k => RpcOutcome.returned (e' k) }
      (fun k => ⟨e' k, rfl⟩)
    exact hA.trans hB.symm
  · exact no_policy_logs_when_returned _ (fun k => ⟨e k, rfl⟩)

/-- Witness for C8: with result-object errors on every policy call, the
run equals the run with no errors at all and produces no policy logs. -/
theorem returned_policy_errors_silently_ignored_witness :
    run { envHappy with createPolicyOutcome :=
        fun _ => RpcOutcome.returned (some "err") } =
      run { envHappy with createPolicyOutcome :=
        fun _ => RpcOutcome.returned none } ∧
    Event.logPolicyError "Allow public uploads" ∉
      (run { envHappy with createPolicyOutcome :=
        fun _ => RpcOutcome.returned (some "err") }).events :=
  have h := returned_policy_errors_silently_ignored envHappy
    (fun _ => some "err") (fun _ => none)
  ⟨h.1, (h.2 "Allow public uploads").1⟩

lemma run_readdir_error (env : Env) (buckets : List String) (r : Option String)
    (m : String)
    (h1 : env.listBucketsResult = Except.ok buckets)
    (h2 : buckets.any (fun bucket => bucket == BUCKET_NAME) = true ∨
      env.createBucketError = none)
    (h3 : env.enableRlsOutcome = RpcOutcome.returned r)
    (h4 : env.readdirResult = Except.error m) :
    run env = ⟨Event.listBuckets :: ((createEvents env buckets).1 ++
      (Event.enableRls "objects" "storage" :: (processPolicies env ++
        [Event.readImagesDir, Event.logSetupFailed]))), 1⟩ := by
  have hc := createEvents_ok env buckets h2
  unfold run tryBody
  rw [h1]
  rcases hce : createEvents env buckets with ⟨cevs, cb⟩
  rw [hce] at hc
  simp only at hc
  subst hc
  rw [h3, h4]
  simp [hce]

/-- C9: a directory-listing exception aborts the run with exit code 1
and no upload and no helper write; an exception while reading any
matched file aborts the run right there with exit code 1, the remaining
entries are not processed and the helper file is not written — the
log-and-continue policy covers only errors returned by the upload call. -/
theorem local_read_failures_fatal (env : Env) (buckets : List String)
    (r : Option String)
    (h1 : env.listBucketsResult = Except.ok buckets)
    (h2 : buckets.any (fun bucket => bucket == BUCKET_NAME) = true ∨
      env.createBucketError = none)
    (h3 : env.enableRlsOutcome = RpcOutcome.returned r) :
    (∀ m, env.readdirResult = Except.error m →
      (run env).exitCode = 1 ∧
      (∀ b p c t u, Event.upload b p c t u ∉ (run env).events) ∧
      (∀ n c, Event.writeFileUtils n c ∉ (run env).events)) ∧
    (∀ fs1 f fs2 m, env.readdirResult = Except.ok (fs1 ++ f :: fs2) →
      isImageFile f = true →
      env.readFileResult f = Except.error m →
      (∀ g ∈ fs1, isImageFile g = true → ∃ c, env.readFileResult g = Except.ok c) →
      (run env).exitCode = 1 ∧
      (∀ n c, Event.writeFileUtils n c ∉ (run env).events) ∧
      (run env).events = Event.listBuckets :: ((createEvents env buckets).1 ++
        (Event.enableRls "objects" "storage" :: (processPolicies env ++
          (Event.readImagesDir :: ((processFiles env fs1).1 ++
            [Event.readFile f, Event.logSetupFailed])))))) := by
  constructor
  · intro m h4
    have hre := run_readdir_error env buckets r m h1 h2 h3 h4
    refine ⟨by rw [hre], ?_, ?_⟩
    · intro b p c t u hmem
      rcases run_events_cases env _ hmem with h | h | h | h | ⟨bks, hb, h⟩ | h |
        ⟨fs, hfs, h⟩ | ⟨fs, hfs, hok, h⟩
      · simp at h
      · simp at h
      · simp at h
      · simp at h
      · have hcb := (createEvents_mem env bks _ h).1; simp at hcb
      · have hk := processPolicies_kinds env _ h; simp [isPolicyStageEv] at hk
      · rw [h4] at hfs; exact Except.noConfusion hfs
      · rw [h4] at hfs; exact Except.noConfusion hfs
    · intro n c hmem
      rcases run_events_cases env _ hmem with h | h | h | h | ⟨bks, hb, h⟩ | h |
        ⟨fs, hfs, h⟩ | ⟨fs, hfs, hok, h⟩
      · simp at h
      · simp at h
      · simp at h
      · simp at h
      · have hcb := (createEvents_mem env bks _ h).1; simp at hcb
      · have hk := processPolicies_kinds env _ h; simp [isPolicyStageEv] at hk
      · rw [h4] at hfs; exact Except.noConfusion hfs
      · rw [h4] at hfs; exact Except.noConfusion hfs
  · intro fs1 f fs2 m h4 hf hr hok
    have habort := processFiles_abort env f m hf hr fs1 hok fs2
    have hra := run_reach_files env buckets (fs1 ++ f :: fs2) r h1 h2 h3 h4
    rw [habort] at hra
    simp only [Bool.false_eq_true, if_false] at hra
    refine ⟨by rw [hra], ?_, by rw [hra]; simp⟩
    intro n c hmem
    rcases run_events_cases env _ hmem with h | h | h | h | ⟨bks, hb, h⟩ | h |
      ⟨fs, hfs, h⟩ | ⟨fs, hfs, hok2, h⟩
    · simp at h
    · simp at h
    · simp at h
    · simp at h
    · have hcb := (createEvents_mem env bks _ h).1; simp at hcb
    · have hk := processPolicies_kinds env _ h; simp [isPolicyStageEv] at hk
    · have hk := processFiles_kinds env fs _ h; simp [isFileStageEv] at hk
    · have hfseq := h4.symm.trans hfs
      injection hfseq with hfseq
      subst hfseq
      rw [habort] at hok2
      simp at hok2

/-- The succeeding environment except that reading `c.JPG` throws. -/
def envReadFail : Env :=
  { envHappy with readFileResult := fun f =>
      if f == "c.JPG" then Except.error "EACCES" else Except.ok [1, 2] }

/-- The succeeding environment except that the directory listing throws. -/
def envDirFail : Env := { envHappy with readdirResult := Except.error "ENOENT" }

/-- Witness for C9: a failing directory listing exits 1; a failing read
of `c.JPG` exits 1 and the helper file is not written. -/
theorem local_read_failures_fatal_witness :
    (run envDirFail).exitCode = 1 ∧
    (run envReadFail).exitCode = 1 ∧
    (∀ n c, Event.writeFileUtils n c ∉ (run envReadFail).events) := by
  have ha := (local_read_failures_fatal envDirFail ["disc-product-images"] none
    rfl (Or.inl (by decide)) rfl).1 "ENOENT" rfl
  have hb := (local_read_failures_fatal envReadFail ["disc-product-images"] none
    rfl (Or.inl (by decide)) rfl).2 ["a.png", "b.txt"] "c.JPG" [] "EACCES"
    rfl (by decide) rfl
    (by
      intro g hg hgi
      simp only [List.mem_cons, List.not_mem_nil, or_false] at hg
      rcases hg with rfl | rfl
      · exact ⟨[1, 2], rfl⟩
      · exact ⟨[1, 2], rfl⟩)
  exact ⟨ha.1, hb.1, hb.2.1⟩

end SetupStorage
